import Mathlib

/-!
Shallow embedding of `src/src/components/EnemyGhost.jsx` (React component
`GhostFollow`): a hostile ghost agent with a pursuit/attack controller
(`useFrame`), a hit-point/death lifecycle (`handleHit`, `startVanish`, the
2200 ms removal `setTimeout`) and an animation de-duplication helper (`play`).

Modelling conventions.

Scalars are `ℚ`.  The one numeric operation of the source with no exact
rational counterpart is `Math.hypot` (and the identical length computation
inside three.js `Vector3.normalize`): the planar distance between ghost and
player.  The per-tick distance therefore enters the embedding as an explicit
argument `dist`; theorems about motion constrain it by `0 ≤ dist` and
`dist ^ 2 = (p.x - g.x) ^ 2 + (p.z - g.z) ^ 2`, which characterises the value
`Math.hypot(p.x - g.x, p.z - g.z)` exactly.  `Vector3.normalize` divides each
component by this same length, and three.js maps the zero vector to the zero
vector (`divideScalar(length || 1)`), which agrees with rational division
where `x / 0 = 0`, so normalisation is embedded as componentwise division by
`dist`.

React `useState`/`useRef` cells become fields of `AgentState`, updated with
immediate sequential semantics.  External notifications (`addKill` from the
quest context, the `onDead` prop) and `setTimeout` scheduling are recorded in
counter fields so that theorems can count how often each side effect fired.
-/

namespace EnemyGhost

/-- WALK_SPEED = 4, walking speed in m/s (source line 10). -/
def WALK_SPEED : ℚ := 4

/-- ATTACK_RANGE = 1, attack distance in m (source line 11). -/
def ATTACK_RANGE : ℚ := 1

/-- ATTACK_COOLDOWN = 1000 ms (source line 14). -/
def ATTACK_COOLDOWN : ℚ := 1000

/-- MAX_HP = 10 (source line 15). -/
def MAX_HP : ℤ := 10

/-- Duration of the vanish phase: the `setTimeout(..., 2200)` delay inside
`startVanish` (source line 60). -/
def VANISH_DURATION : ℚ := 2200

/-- A 3D vector (three.js `Vector3`), with rational components. -/
structure Vec3 where
  x : ℚ
  y : ℚ
  z : ℚ
  deriving DecidableEq, Repr

/-- The rapier rigid body referenced by `rigid.current`: its current
translation and its enabled flag (`setEnabled`). -/
structure Body where
  pos : Vec3
  enabled : Bool
  deriving DecidableEq, Repr

/-- An action performed on the animation engine by `play`: stopping every
clip (`Object.values(actions).forEach(a => a.stop())`) or starting one clip
with a fade-in duration (`actions[name].reset().fadeIn(0.2).play()`). -/
inductive AnimAction where
  | stopAll
  | start (clip : String) (fadeIn : ℚ)
  deriving DecidableEq, Repr

/-- The mutable state of one `GhostFollow` instance.

`curr`, `hp`, `dead`, `vanishing` are the `useState` cells; `vanishPos` is
`vanishPosRef.current`; `lastAttack` is `lastAttack.current`; `rigid` is
`rigid.current` (`none` before the ref is attached); `actions` is the list of
clip names available from `useAnimations`.

`timerPending` records that the 2200 ms removal `setTimeout` has been
scheduled and has not fired yet; `removalDeadline` records the absolute time
it will fire; `timersScheduled`, `killCount` and `onDeadCount` count how many
times `setTimeout`, `addKill` and `onDead` were invoked. -/
structure AgentState where
  curr : String
  actions : List String
  hp : ℤ
  dead : Bool
  vanishing : Bool
  vanishPos : Vec3
  lastAttack : ℚ
  rigid : Option Body
  timerPending : Bool
  timersScheduled : ℕ
  removalDeadline : Option ℚ
  killCount : ℕ
  onDeadCount : ℕ
  deriving DecidableEq, Repr

/-- The `play` helper (source lines 32–37): if the requested clip is the one
currently playing, or is not among the available actions, do nothing;
otherwise stop every clip, start the requested one with a 0.2 s fade-in and
record it as current.  Returns the updated state together with the list of
actions sent to the animation engine. -/
def play (s : AgentState) (name : String) : AgentState × List AnimAction :=
  if s.curr = name ∨ ¬ name ∈ s.actions then (s, [])
  else ({ s with curr := name }, [AnimAction.stopAll, AnimAction.start name (2 / 10)])

/-- The `startVanish` handler (source lines 49–64).  Guarded by `vanishing`;
on first entry it sets `vanishing`, captures the body's current translation
into `vanishPosRef`, disables the body (`setEnabled(false)`), and schedules
the 2200 ms removal timeout.  `now` is the current time, so the scheduled
deadline is `now + VANISH_DURATION`. -/
def startVanish (now : ℚ) (s : AgentState) : AgentState :=
  if s.vanishing then s
  else
    let s1 := { s with vanishing := true }
    let s2 :=
      match s1.rigid with
      | some b => { s1 with vanishPos := b.pos, rigid := some { pos := b.pos, enabled := false } }
      | none => s1
    { s2 with
      timerPending := true
      timersScheduled := s2.timersScheduled + 1
      removalDeadline := some (now + VANISH_DURATION) }

/-- The callback of the removal `setTimeout` (source lines 60–63):
`setDead(true)` followed by `onDead()`. -/
def timerFire (s : AgentState) : AgentState :=
  { s with dead := true, timerPending := false, onDeadCount := s.onDeadCount + 1 }

/-- The `handleHit` damage handler (source lines 66–75; the source default for
`damage` is 10).  The updater computes `next = prev - damage`, and whenever
`next ≤ 0` it calls `addKill()` and `startVanish()` before storing `next`.
`now` is the current time, consumed by `startVanish` for the timeout
deadline. -/
def handleHit (now : ℚ) (damage : ℤ) (s : AgentState) : AgentState :=
  if s.hp - damage ≤ 0 then
    { startVanish now { s with killCount := s.killCount + 1 } with hp := s.hp - damage }
  else
    { s with hp := s.hp - damage }

/-- The observable output of one `useFrame` tick: the kinematic target passed
to `setNextKinematicTranslation`, the clip name passed to `play`, and the
point passed to `model.current?.lookAt`. -/
structure TickOutput where
  motion : Option Vec3
  animReq : Option String
  look : Option Vec3
  deriving DecidableEq, Repr

/-- The output of a tick that did nothing. -/
def noTick : TickOutput := ⟨none, none, none⟩

/-- The `useFrame` body (source lines 80–113).  `player` is
`playerRef.current`'s translation (`none` when the ref is empty), `dt` the
frame delta, `now` the value of `performance.now()`, and `dist` the value of
`Math.hypot(p.x - g.x, p.z - g.z)` (see the module docstring).  The body
returns early when `dead`, or when either ref is missing.  Otherwise, if the
planar distance exceeds `ATTACK_RANGE` it proposes a pursuit step of
`WALK_SPEED * dt` along the normalised horizontal direction toward the player
and requests the walk clip; within range it requests the attack clip and,
when the cooldown has elapsed, stamps `lastAttack` and proposes a 0.3 m
retreat step along the normalised horizontal direction away from the player.
The `lookAt` call goes through `model.current`, which is mounted only while
not vanishing. -/
def tick (s : AgentState) (player : Option Vec3) (dt now dist : ℚ) :
    AgentState × TickOutput :=
  if s.dead then (s, noTick)
  else
    match player, s.rigid with
    | some p, some b =>
      let g := b.pos
      let look : Option Vec3 := if s.vanishing then none else some ⟨p.x, g.y, p.z⟩
      if ATTACK_RANGE < dist then
        let dirx := (p.x - g.x) / dist
        let dirz := (p.z - g.z) / dist
        let next : Vec3 :=
          ⟨g.x + dirx * WALK_SPEED * dt, g.y, g.z + dirz * WALK_SPEED * dt⟩
        ((play s "Armature|Action_Walk").1,
          ⟨some next, some "Armature|Action_Walk", look⟩)
      else
        let s1 := (play s "Armature|Action_Atack").1
        if ATTACK_COOLDOWN < now - s.lastAttack then
          let bdx := (g.x - p.x) / dist
          let bdz := (g.z - p.z) / dist
          let retreat : Vec3 := ⟨g.x + bdx * (3 / 10), g.y, g.z + bdz * (3 / 10)⟩
          ({ s1 with lastAttack := now },
            ⟨some retreat, some "Armature|Action_Atack", look⟩)
        else
          (s1, ⟨none, some "Armature|Action_Atack", look⟩)
    | _, _ => (s, noTick)

/-- An externally triggered event delivered to one agent:
a damaging intersection (`onIntersectionEnter` with a `magic` payload,
calling `handleHit`), the rain-stopped effect (source lines 116–120, calling
`startVanish`), the firing of the scheduled removal timeout, one `useFrame`
tick, or the physics engine placing the (enabled) kinematic body. -/
inductive Event where
  | hit (now : ℚ) (damage : ℤ)
  | rainStop (now : ℚ)
  | timer
  | tick (player : Option Vec3) (dt now dist : ℚ)
  | physSetPos (v : Vec3)
  deriving DecidableEq, Repr

/-- One event step.  A `timer` event fires only when the timeout is actually
pending (a `setTimeout` callback cannot run unless it was scheduled); a
disabled body is excluded from kinematic integration, so `physSetPos` moves
the body only while it is enabled. -/
def step (s : AgentState) (e : Event) : AgentState :=
  match e with
  | Event.hit now damage => handleHit now damage s
  | Event.rainStop now => startVanish now s
  | Event.timer => if s.timerPending then timerFire s else s
  | Event.tick player dt now dist => (tick s player dt now dist).1
  | Event.physSetPos v =>
    match s.rigid with
    | some b => if b.enabled then { s with rigid := some { pos := v, enabled := b.enabled } } else s
    | none => s

/-- Run a sequence of events. -/
def run (s : AgentState) (es : List Event) : AgentState :=
  es.foldl step s

/-- The state of a freshly mounted agent: `useState` initial values
(`curr = "Idle"`, `hp = MAX_HP`, not dead, not vanishing), `vanishPosRef`
initialised to the spawn position, `lastAttack = 0`, and the rigid-body ref
attached and placed at the spawn position by the mount effect
(source lines 40–47). -/
def initialState (spawnPos : Vec3) (clips : List String) : AgentState :=
  { curr := "Idle"
    actions := clips
    hp := MAX_HP
    dead := false
    vanishing := false
    vanishPos := spawnPos
    lastAttack := 0
    rigid := some { pos := spawnPos, enabled := true }
    timerPending := false
    timersScheduled := 0
    removalDeadline := none
    killCount := 0
    onDeadCount := 0 }

/-- The clip names used by the component (the walk clip name at source line
100, the attack clip name — with the source's own spelling — at line 103,
plus the initial "Idle"). -/
def ghostClips : List String := ["Idle", "Armature|Action_Walk", "Armature|Action_Atack"]

/-- A concrete freshly mounted agent at the origin, used by witnesses and
counterexamples. -/
def ghostInit : AgentState := initialState ⟨0, 0, 0⟩ ghostClips

/-- The health fraction rendered by the health bar:
`scale-x = hp / MAX_HP` (source line 152). -/
def healthFraction (s : AgentState) : ℚ := (s.hp : ℚ) / (MAX_HP : ℚ)

/-- The lifecycle state of the spec: Removed once `dead`, Vanishing once
`vanishing`, Alive otherwise. -/
inductive Lifecycle where
  | Alive
  | Vanishing
  | Removed
  deriving DecidableEq, Repr

/-- Lifecycle state as derived from the `dead` and `vanishing` flags. -/
def lifecycleState (s : AgentState) : Lifecycle :=
  if s.dead then Lifecycle.Removed
  else if s.vanishing then Lifecycle.Vanishing
  else Lifecycle.Alive

/-- Position of a lifecycle state in the forward order
Alive → Vanishing → Removed. -/
def lifeOrd : Lifecycle → ℕ
  | Lifecycle.Alive => 0
  | Lifecycle.Vanishing => 1
  | Lifecycle.Removed => 2

/-- Damage-only event sequences: one `handleHit` call per listed amount. -/
def hitsOf (ds : List ℤ) : List Event := ds.map fun d => Event.hit 0 d

/-- Number of calls in a damage sequence whose updated hit-point value is
`≤ 0` — i.e. the number of `addKill()` invocations `handleHit` performs when
the listed damages are applied in order starting from `hp0`. -/
def lethalCalls (hp0 : ℤ) : List ℤ → ℕ
  | [] => 0
  | d :: rest => (if hp0 - d ≤ 0 then 1 else 0) + lethalCalls (hp0 - d) rest

/-- Whether some prefix of the damage sequence drives the hit points to
`≤ 0`. -/
def everLethal (hp0 : ℤ) : List ℤ → Bool
  | [] => false
  | d :: rest => decide (hp0 - d ≤ 0) || everLethal (hp0 - d) rest

/-- Number of clip-start actions in a list of animation actions. -/
def startCount : List AnimAction → ℕ
  | [] => 0
  | AnimAction.start _ _ :: rest => 1 + startCount rest
  | AnimAction.stopAll :: rest => startCount rest

/-- An event whose damage payload (if any) is positive, as the spec requires
of `applyDamage` amounts. -/
def damageOk : Event → Bool
  | Event.hit _ d => decide (0 < d)
  | _ => true

/-! ### Basic lemmas about `run`, `startVanish` and `tick` -/

lemma run_nil (s : AgentState) : run s [] = s := rfl

lemma run_cons (s : AgentState) (e : Event) (es : List Event) :
    run s (e :: es) = run (step s e) es := rfl

lemma startVanish_vanishing (now : ℚ) (s : AgentState) :
    (startVanish now s).vanishing = true := by
  unfold startVanish
  split
  · assumption
  · rcases hr : s.rigid with _ | b <;> simp [hr]

lemma startVanish_of_vanishing (now : ℚ) (s : AgentState) (h : s.vanishing = true) :
    startVanish now s = s := by
  unfold startVanish
  simp [h]

lemma startVanish_idem (t1 t2 : ℚ) (s : AgentState) :
    startVanish t2 (startVanish t1 s) = startVanish t1 s :=
  startVanish_of_vanishing _ _ (startVanish_vanishing t1 s)

lemma startVanish_hp (now : ℚ) (s : AgentState) : (startVanish now s).hp = s.hp := by
  unfold startVanish
  split
  · rfl
  · rcases hr : s.rigid with _ | b <;> simp [hr]

lemma startVanish_dead (now : ℚ) (s : AgentState) : (startVanish now s).dead = s.dead := by
  unfold startVanish
  split
  · rfl
  · rcases hr : s.rigid with _ | b <;> simp [hr]

lemma startVanish_onDead (now : ℚ) (s : AgentState) :
    (startVanish now s).onDeadCount = s.onDeadCount := by
  unfold startVanish
  split
  · rfl
  · rcases hr : s.rigid with _ | b <;> simp [hr]

lemma startVanish_fields (now : ℚ) (s : AgentState) (b : Body)
    (hv : s.vanishing = false) (hb : s.rigid = some b) :
    startVanish now s =
      { s with
        vanishing := true
        vanishPos := b.pos
        rigid := some { pos := b.pos, enabled := false }
        timerPending := true
        timersScheduled := s.timersScheduled + 1
        removalDeadline := some (now + VANISH_DURATION) } := by
  unfold startVanish
  simp [hv, hb]

lemma play_lastAttack (s : AgentState) (name : String) :
    (play s name).1.lastAttack = s.lastAttack := by
  unfold play
  split <;> rfl

lemma tick_preserves (s : AgentState) (player : Option Vec3) (dt now dist : ℚ) :
    (tick s player dt now dist).1.hp = s.hp ∧
    (tick s player dt now dist).1.dead = s.dead ∧
    (tick s player dt now dist).1.vanishing = s.vanishing ∧
    (tick s player dt now dist).1.vanishPos = s.vanishPos ∧
    (tick s player dt now dist).1.rigid = s.rigid ∧
    (tick s player dt now dist).1.timerPending = s.timerPending ∧
    (tick s player dt now dist).1.timersScheduled = s.timersScheduled ∧
    (tick s player dt now dist).1.killCount = s.killCount ∧
    (tick s player dt now dist).1.onDeadCount = s.onDeadCount ∧
    (tick s player dt now dist).1.removalDeadline = s.removalDeadline ∧
    (tick s player dt now dist).1.actions = s.actions := by
  unfold tick play
  rcases player with _ | p
  · split <;> simp
  · rcases hr : s.rigid with _ | b
    · split <;> simp [hr]
    · split
      · simp [hr]
      · simp only [hr]
        split_ifs <;> simp [hr]

lemma startVanish_killCount (now : ℚ) (s : AgentState) :
    (startVanish now s).killCount = s.killCount := by
  unfold startVanish
  split
  · rfl
  · rcases hr : s.rigid with _ | b <;> simp [hr]

lemma startVanish_timers (now : ℚ) (s : AgentState) :
    (startVanish now s).timersScheduled
      = s.timersScheduled + if s.vanishing = true then 0 else 1 := by
  unfold startVanish
  split
  · simp_all
  · rcases hr : s.rigid with _ | b <;> simp_all

lemma startVanish_timerPending (now : ℚ) (s : AgentState) :
    (startVanish now s).timerPending
      = if s.vanishing = true then s.timerPending else true := by
  unfold startVanish
  split
  · simp_all
  · rcases hr : s.rigid with _ | b <;> simp_all

/-! ### Per-field equations for `handleHit` -/

lemma handleHit_hp (now : ℚ) (d : ℤ) (s : AgentState) :
    (handleHit now d s).hp = s.hp - d := by
  unfold handleHit
  split <;> rfl

lemma handleHit_dead (now : ℚ) (d : ℤ) (s : AgentState) :
    (handleHit now d s).dead = s.dead := by
  unfold handleHit
  split
  · simp [startVanish_dead]
  · rfl

lemma handleHit_onDead (now : ℚ) (d : ℤ) (s : AgentState) :
    (handleHit now d s).onDeadCount = s.onDeadCount := by
  unfold handleHit
  split
  · simp [startVanish_onDead]
  · rfl

lemma handleHit_vanishing (now : ℚ) (d : ℤ) (s : AgentState) :
    (handleHit now d s).vanishing = (s.vanishing || decide (s.hp - d ≤ 0)) := by
  unfold handleHit
  split <;> rename_i h
  · simp [startVanish_vanishing, h]
  · simp [h]

lemma handleHit_killCount (now : ℚ) (d : ℤ) (s : AgentState) :
    (handleHit now d s).killCount
      = s.killCount + if s.hp - d ≤ 0 then 1 else 0 := by
  unfold handleHit
  split <;> rename_i h
  · simp [startVanish_killCount, h]
  · simp [h]

lemma handleHit_timers (now : ℚ) (d : ℤ) (s : AgentState) :
    (handleHit now d s).timersScheduled
      = s.timersScheduled
        + if s.hp - d ≤ 0 ∧ s.vanishing = false then 1 else 0 := by
  unfold handleHit
  split <;> rename_i h
  · rcases hv : s.vanishing <;> simp [startVanish_timers, h, hv]
  · simp [h]

lemma handleHit_timerPending (now : ℚ) (d : ℤ) (s : AgentState) :
    (handleHit now d s).timerPending
      = if s.hp - d ≤ 0 ∧ s.vanishing = false then true else s.timerPending := by
  unfold handleHit
  split <;> rename_i h
  · rcases hv : s.vanishing <;> simp [startVanish_timerPending, h, hv]
  · simp [h]

lemma handleHit_vanishPos (now : ℚ) (d : ℤ) (s : AgentState) (h : s.vanishing = true) :
    (handleHit now d s).vanishPos = s.vanishPos := by
  unfold handleHit
  split
  · rw [startVanish_of_vanishing _ _
      (show ({ s with killCount := s.killCount + 1 } : AgentState).vanishing = true from h)]
  · rfl

/-! ### Step-level lemmas -/

lemma step_hit (now : ℚ) (d : ℤ) (s : AgentState) :
    step s (Event.hit now d) = handleHit now d s := rfl

lemma step_rain (now : ℚ) (s : AgentState) :
    step s (Event.rainStop now) = startVanish now s := rfl

lemma step_timer_eq (s : AgentState) :
    step s Event.timer = if s.timerPending then timerFire s else s := rfl

lemma step_tick_eq (s : AgentState) (p : Option Vec3) (dt now dist : ℚ) :
    step s (Event.tick p dt now dist) = (tick s p dt now dist).1 := rfl

lemma physSetPos_preserves (s : AgentState) (v : Vec3) :
    (step s (Event.physSetPos v)).hp = s.hp ∧
    (step s (Event.physSetPos v)).dead = s.dead ∧
    (step s (Event.physSetPos v)).vanishing = s.vanishing ∧
    (step s (Event.physSetPos v)).vanishPos = s.vanishPos ∧
    (step s (Event.physSetPos v)).timerPending = s.timerPending ∧
    (step s (Event.physSetPos v)).timersScheduled = s.timersScheduled ∧
    (step s (Event.physSetPos v)).killCount = s.killCount ∧
    (step s (Event.physSetPos v)).onDeadCount = s.onDeadCount ∧
    (step s (Event.physSetPos v)).removalDeadline = s.removalDeadline ∧
    (step s (Event.physSetPos v)).curr = s.curr ∧
    (step s (Event.physSetPos v)).lastAttack = s.lastAttack ∧
    (step s (Event.physSetPos v)).actions = s.actions := by
  rw [show step s (Event.physSetPos v)
    = (match s.rigid with
       | some b => if b.enabled
           then { s with rigid := some { pos := v, enabled := b.enabled } } else s
       | none => s) from rfl]
  rcases hr : s.rigid with _ | b
  · simp [hr]
  · simp only [hr]
    split <;> simp

lemma step_vanishing_mono (s : AgentState) (e : Event) (h : s.vanishing = true) :
    (step s e).vanishing = true := by
  cases e with
  | hit now d => rw [step_hit, handleHit_vanishing, h]; rfl
  | rainStop now => exact startVanish_vanishing now s
  | timer =>
    rw [step_timer_eq]
    split
    · exact h
    · exact h
  | tick p dt now dist =>
    rw [step_tick_eq, (tick_preserves s p dt now dist).2.2.1]; exact h
  | physSetPos v => rw [(physSetPos_preserves s v).2.2.1]; exact h

lemma step_dead_mono (s : AgentState) (e : Event) (h : s.dead = true) :
    (step s e).dead = true := by
  cases e with
  | hit now d => rw [step_hit, handleHit_dead]; exact h
  | rainStop now => rw [step_rain, startVanish_dead]; exact h
  | timer =>
    rw [step_timer_eq]
    split
    · rfl
    · exact h
  | tick p dt now dist =>
    rw [step_tick_eq, (tick_preserves s p dt now dist).2.1]; exact h
  | physSetPos v => rw [(physSetPos_preserves s v).2.1]; exact h

lemma step_vanishPos (s : AgentState) (e : Event) (h : s.vanishing = true) :
    (step s e).vanishPos = s.vanishPos := by
  cases e with
  | hit now d => exact handleHit_vanishPos now d s h
  | rainStop now => rw [step_rain, startVanish_of_vanishing now s h]
  | timer =>
    rw [step_timer_eq]
    split
    · rfl
    · rfl
  | tick p dt now dist => exact (tick_preserves s p dt now dist).2.2.2.1
  | physSetPos v => exact (physSetPos_preserves s v).2.2.2.1

lemma step_timerInv (s : AgentState) (e : Event)
    (h : s.timerPending = true → s.vanishing = true) :
    (step s e).timerPending = true → (step s e).vanishing = true := by
  cases e with
  | hit now d =>
    intro hp
    rw [step_hit] at hp ⊢
    rw [handleHit_vanishing]
    rw [handleHit_timerPending] at hp
    by_cases hc : s.hp - d ≤ 0 ∧ s.vanishing = false
    · simp [hc.1]
    · simp only [if_neg hc] at hp
      rw [h hp]; rfl
  | rainStop now => intro _; exact startVanish_vanishing now s
  | timer =>
    rw [step_timer_eq]
    split
    · intro hp
      simp [timerFire] at hp
    · exact h
  | tick p dt now dist =>
    rw [step_tick_eq, (tick_preserves s p dt now dist).2.2.1,
      (tick_preserves s p dt now dist).2.2.2.2.2.1]
    exact h
  | physSetPos v =>
    rw [(physSetPos_preserves s v).2.2.1, (physSetPos_preserves s v).2.2.2.2.1]
    exact h

lemma step_timersEq (s : AgentState) (e : Event)
    (h : s.timersScheduled = if s.vanishing = true then 1 else 0) :
    (step s e).timersScheduled = if (step s e).vanishing = true then 1 else 0 := by
  cases e with
  | hit now d =>
    rw [step_hit, handleHit_timers, handleHit_vanishing, h]
    rcases hv : s.vanishing <;> by_cases hc : s.hp - d ≤ 0 <;> simp [hv, hc]
  | rainStop now =>
    rw [step_rain, startVanish_timers, startVanish_vanishing, h]
    rcases hv : s.vanishing <;> simp [hv]
  | timer =>
    rw [step_timer_eq]
    split
    · simpa [timerFire] using h
    · exact h
  | tick p dt now dist =>
    rw [step_tick_eq, (tick_preserves s p dt now dist).2.2.1,
      (tick_preserves s p dt now dist).2.2.2.2.2.2.1]
    exact h
  | physSetPos v =>
    rw [(physSetPos_preserves s v).2.2.1, (physSetPos_preserves s v).2.2.2.2.2.1]
    exact h

lemma step_dead_source (s : AgentState) (e : Event)
    (h2 : (step s e).dead = true) (h1 : s.dead = false) : s.timerPending = true := by
  cases e with
  | hit now d =>
    rw [step_hit, handleHit_dead] at h2
    rw [h1] at h2
    cases h2
  | rainStop now =>
    rw [step_rain, startVanish_dead] at h2
    rw [h1] at h2
    cases h2
  | timer =>
    rw [step_timer_eq] at h2
    by_cases hp : s.timerPending = true
    · exact hp
    · rw [if_neg hp] at h2
      rw [h1] at h2
      cases h2
  | tick p dt now dist =>
    rw [step_tick_eq, (tick_preserves s p dt now dist).2.1] at h2
    rw [h1] at h2
    cases h2
  | physSetPos v =>
    rw [(physSetPos_preserves s v).2.1] at h2
    rw [h1] at h2
    cases h2

lemma step_hpInv (s : AgentState) (e : Event) (hok : damageOk e = true)
    (h1 : s.hp ≤ MAX_HP) (h2 : s.vanishing = false → 0 < s.hp) :
    (step s e).hp ≤ MAX_HP ∧ ((step s e).vanishing = false → 0 < (step s e).hp) := by
  cases e with
  | hit now d =>
    have hd : 0 < d := by simpa [damageOk] using hok
    rw [step_hit, handleHit_hp, handleHit_vanishing]
    simp only [MAX_HP] at h1 ⊢
    constructor
    · omega
    · intro hv
      rcases Bool.or_eq_false_iff.mp hv with ⟨ha, hb⟩
      have := h2 ha
      have : ¬ (s.hp - d ≤ 0) := by simpa using hb
      omega
  | rainStop now =>
    rw [step_rain, startVanish_hp, startVanish_vanishing]
    exact ⟨h1, by intro hv; cases hv⟩
  | timer =>
    rw [step_timer_eq]
    split
    · exact ⟨h1, by simpa [timerFire] using h2⟩
    · exact ⟨h1, h2⟩
  | tick p dt now dist =>
    rw [step_tick_eq, (tick_preserves s p dt now dist).1,
      (tick_preserves s p dt now dist).2.2.1]
    exact ⟨h1, h2⟩
  | physSetPos v =>
    rw [(physSetPos_preserves s v).1, (physSetPos_preserves s v).2.2.1]
    exact ⟨h1, h2⟩

/-! ### Run-level lemmas -/

lemma run_vanishing_mono (s : AgentState) (es : List Event) (h : s.vanishing = true) :
    (run s es).vanishing = true := by
  induction es generalizing s with
  | nil => exact h
  | cons e es ih => rw [run_cons]; exact ih (step s e) (step_vanishing_mono s e h)

lemma run_vanishPos (s : AgentState) (es : List Event) (h : s.vanishing = true) :
    (run s es).vanishPos = s.vanishPos := by
  induction es generalizing s with
  | nil => rfl
  | cons e es ih =>
    rw [run_cons, ih (step s e) (step_vanishing_mono s e h), step_vanishPos s e h]

lemma run_timerInv (s : AgentState) (es : List Event)
    (h : s.timerPending = true → s.vanishing = true) :
    (run s es).timerPending = true → (run s es).vanishing = true := by
  induction es generalizing s with
  | nil => exact h
  | cons e es ih => rw [run_cons]; exact ih (step s e) (step_timerInv s e h)

lemma run_timersEq (s : AgentState) (es : List Event)
    (h : s.timersScheduled = if s.vanishing = true then 1 else 0) :
    (run s es).timersScheduled = if (run s es).vanishing = true then 1 else 0 := by
  induction es generalizing s with
  | nil => exact h
  | cons e es ih => rw [run_cons]; exact ih (step s e) (step_timersEq s e h)

lemma run_hpInv (s : AgentState) (es : List Event)
    (hok : ∀ e ∈ es, damageOk e = true)
    (h1 : s.hp ≤ MAX_HP) (h2 : s.vanishing = false → 0 < s.hp) :
    (run s es).hp ≤ MAX_HP ∧ ((run s es).vanishing = false → 0 < (run s es).hp) := by
  induction es generalizing s with
  | nil => exact ⟨h1, h2⟩
  | cons e es ih =>
    have hse := step_hpInv s e (hok e (List.mem_cons_self e es)) h1 h2
    rw [run_cons]
    exact ih (step s e) (fun x hx => hok x (List.mem_cons_of_mem e hx)) hse.1 hse.2

/-! ### Damage-only runs, for the kill-notification claim -/

lemma hitsOf_nil : hitsOf [] = [] := rfl

lemma hitsOf_cons (d : ℤ) (ds : List ℤ) :
    hitsOf (d :: ds) = Event.hit 0 d :: hitsOf ds := rfl

lemma run_hits_vanishing (s : AgentState) (ds : List ℤ) (hv : s.vanishing = true) :
    (run s (hitsOf ds)).killCount = s.killCount + lethalCalls s.hp ds ∧
    (run s (hitsOf ds)).timersScheduled = s.timersScheduled ∧
    (run s (hitsOf ds)).vanishing = true ∧
    (run s (hitsOf ds)).hp = s.hp - ds.sum := by
  induction ds generalizing s with
  | nil => simp [hitsOf_nil, run_nil, hv, lethalCalls]
  | cons d ds ih =>
    rw [hitsOf_cons, run_cons, step_hit]
    have hv' : (handleHit 0 d s).vanishing = true := by
      rw [handleHit_vanishing, hv]; rfl
    rcases ih (handleHit 0 d s) hv' with ⟨hk, ht, hvn, hhp⟩
    refine ⟨?_, ?_, hvn, ?_⟩
    · rw [hk, handleHit_killCount, handleHit_hp]
      by_cases hc : s.hp - d ≤ 0
      · simp [lethalCalls, hc]
        omega
      · simp [lethalCalls, hc]
    · rw [ht, handleHit_timers]
      simp [hv]
    · rw [hhp, handleHit_hp, List.sum_cons]
      omega

lemma run_hits_alive (s : AgentState) (ds : List ℤ) (hv : s.vanishing = false) :
    (run s (hitsOf ds)).killCount = s.killCount + lethalCalls s.hp ds ∧
    (run s (hitsOf ds)).timersScheduled
      = s.timersScheduled + (if everLethal s.hp ds then 1 else 0) ∧
    (run s (hitsOf ds)).vanishing = everLethal s.hp ds ∧
    (run s (hitsOf ds)).hp = s.hp - ds.sum := by
  induction ds generalizing s with
  | nil => simp [hitsOf_nil, run_nil, hv, lethalCalls, everLethal]
  | cons d ds ih =>
    rw [hitsOf_cons, run_cons, step_hit]
    by_cases hc : s.hp - d ≤ 0
    · have hv' : (handleHit 0 d s).vanishing = true := by
        rw [handleHit_vanishing]
        simp [hc]
      rcases run_hits_vanishing (handleHit 0 d s) ds hv' with ⟨hk, ht, hvn, hhp⟩
      refine ⟨?_, ?_, ?_, ?_⟩
      · rw [hk, handleHit_killCount, handleHit_hp]
        simp [lethalCalls, hc]
        omega
      · rw [ht, handleHit_timers]
        simp [everLethal, hc, hv]
      · rw [hvn]
        simp [everLethal, hc]
      · rw [hhp, handleHit_hp, List.sum_cons]
        omega
    · have hv' : (handleHit 0 d s).vanishing = false := by
        rw [handleHit_vanishing, hv]
        simp [hc]
      rcases ih (handleHit 0 d s) hv' with ⟨hk, ht, hvn, hhp⟩
      refine ⟨?_, ?_, ?_, ?_⟩
      · rw [hk, handleHit_killCount, handleHit_hp]
        simp [lethalCalls, hc]
      · rw [ht, handleHit_timers, handleHit_hp]
        simp [everLethal, hc]
      · rw [hvn, handleHit_hp]
        simp [everLethal, hc]
      · rw [hhp, handleHit_hp, List.sum_cons]
        omega

lemma everLethal_of_sum (hp0 : ℤ) (ds : List ℤ) (h0 : 0 < hp0) (hs : hp0 ≤ ds.sum) :
    everLethal hp0 ds = true := by
  induction ds generalizing hp0 with
  | nil => simp at hs; omega
  | cons d ds ih =>
    by_cases hc : hp0 - d ≤ 0
    · simp [everLethal, hc]
    · have h0' : 0 < hp0 - d := by omega
      have hs' : hp0 - d ≤ ds.sum := by
        rw [List.sum_cons] at hs; omega
      simp [everLethal, hc, ih (hp0 - d) h0' hs']

lemma lethalCalls_pos (hp0 : ℤ) (ds : List ℤ) (h : everLethal hp0 ds = true) :
    1 ≤ lethalCalls hp0 ds := by
  induction ds generalizing hp0 with
  | nil => simp [everLethal] at h
  | cons d ds ih =>
    by_cases hc : hp0 - d ≤ 0
    · simp [lethalCalls, hc]
    · have h' : everLethal (hp0 - d) ds = true := by
        simpa [everLethal, hc] using h
      have := ih (hp0 - d) h'
      simp [lethalCalls, hc]
      omega

lemma tick_motion_y (s : AgentState) (p : Vec3) (b : Body) (dt now dist : ℚ)
    (hb : s.rigid = some b) :
    (tick s (some p) dt now dist).2.motion = none ∨
    ∃ mx mz, (tick s (some p) dt now dist).2.motion = some ⟨mx, b.pos.y, mz⟩ := by
  rcases hd : s.dead
  · by_cases h1 : ATTACK_RANGE < dist
    · exact Or.inr ⟨b.pos.x + (p.x - b.pos.x) / dist * WALK_SPEED * dt,
        b.pos.z + (p.z - b.pos.z) / dist * WALK_SPEED * dt,
        by simp [tick, hd, hb, h1]⟩
    · by_cases h2 : ATTACK_COOLDOWN < now - s.lastAttack
      · exact Or.inr ⟨b.pos.x + (b.pos.x - p.x) / dist * (3 / 10),
          b.pos.z + (b.pos.z - p.z) / dist * (3 / 10),
          by simp [tick, hd, hb, h1, h2]⟩
      · exact Or.inl (by simp [tick, hd, hb, h1, h2])
  · exact Or.inl (by simp [tick, hd, noTick])

/-! ### Claim theorems -/

/-- C1, counterexample: two `handleHit` calls of damage 10 each (cumulative
20 ≥ MAX_HP) make the kill notification `addKill` fire TWICE, not exactly
once: the guard in `startVanish` protects the lifecycle transition (the
removal timer is scheduled once), but `handleHit` calls `addKill()` on every
call whose updated hit-point value is ≤ 0, with no first-crossing guard. -/
theorem C1_cex :
    (run ghostInit [Event.hit 0 10, Event.hit 0 10]).killCount = 2 ∧
    (run ghostInit [Event.hit 0 10, Event.hit 0 10]).timersScheduled = 1 ∧
    (2 : ℕ) ≠ 1 := by
  refine ⟨by decide, by decide, by decide⟩

/-- C1, amended: for every sequence of `handleHit` calls whose cumulative
damage is at least MAX_HP, the death transition occurs exactly once (exactly
one removal timer is ever scheduled; `vanishing` is set), and the kill
notification fires once per call whose updated hit-point value is ≤ 0 — at
least once, but once more for each further lethal-total call after the death
transition has started, rather than exactly once. -/
theorem C1_amended (p0 : Vec3) (clips : List String) (ds : List ℤ)
    (hsum : MAX_HP ≤ ds.sum) :
    (run (initialState p0 clips) (hitsOf ds)).timersScheduled = 1 ∧
    (run (initialState p0 clips) (hitsOf ds)).vanishing = true ∧
    (run (initialState p0 clips) (hitsOf ds)).killCount = lethalCalls MAX_HP ds ∧
    1 ≤ (run (initialState p0 clips) (hitsOf ds)).killCount := by
  have hv : (initialState p0 clips).vanishing = false := rfl
  rcases run_hits_alive (initialState p0 clips) ds hv with ⟨hk, ht, hvn, _⟩
  have hL : everLethal MAX_HP ds = true :=
    everLethal_of_sum MAX_HP ds (by norm_num [MAX_HP]) hsum
  refine ⟨?_, ?_, ?_, ?_⟩
  · rw [ht]
    simp [initialState, hL]
  · rw [hvn]
    simp [initialState, hL]
  · rw [hk]
    simp [initialState]
  · rw [hk]
    simp only [initialState]
    simpa using lethalCalls_pos MAX_HP ds hL

/-- C1 witness: the amended claim at the concrete damage sequence [4, 7]
(cumulative 11 ≥ 10; only the second call crosses the threshold). -/
theorem C1_witness :
    (run (initialState ⟨0, 0, 0⟩ ghostClips) (hitsOf [4, 7])).timersScheduled = 1 ∧
    (run (initialState ⟨0, 0, 0⟩ ghostClips) (hitsOf [4, 7])).vanishing = true ∧
    (run (initialState ⟨0, 0, 0⟩ ghostClips) (hitsOf [4, 7])).killCount
      = lethalCalls MAX_HP [4, 7] ∧
    1 ≤ (run (initialState ⟨0, 0, 0⟩ ghostClips) (hitsOf [4, 7])).killCount :=
  C1_amended ⟨0, 0, 0⟩ ghostClips [4, 7] (by decide)

/-- C2: from any reachable state, one further event moves `lifecycleState`
forward only — it never decreases, it advances by at most one stage (so
Removed is reached only from Vanishing, never directly from Alive), and the
`vanishing` and `dead` flags are monotone (once set they stay set; in
particular once Removed the lifecycle state never changes again). -/
theorem C2_lifecycle_monotone (p0 : Vec3) (clips : List String)
    (es : List Event) (e : Event) :
    lifeOrd (lifecycleState (run (initialState p0 clips) es))
      ≤ lifeOrd (lifecycleState (step (run (initialState p0 clips) es) e)) ∧
    lifeOrd (lifecycleState (step (run (initialState p0 clips) es) e))
      ≤ lifeOrd (lifecycleState (run (initialState p0 clips) es)) + 1 ∧
    (run (initialState p0 clips) es).vanishing
      ≤ (step (run (initialState p0 clips) es) e).vanishing ∧
    (run (initialState p0 clips) es).dead
      ≤ (step (run (initialState p0 clips) es) e).dead := by
  have hInv : (run (initialState p0 clips) es).timerPending = true →
      (run (initialState p0 clips) es).vanishing = true :=
    run_timerInv (initialState p0 clips) es (by simp [initialState])
  have hvm := step_vanishing_mono (run (initialState p0 clips) es) e
  have hdm := step_dead_mono (run (initialState p0 clips) es) e
  have hsrc := step_dead_source (run (initialState p0 clips) es) e
  rcases hd : (run (initialState p0 clips) es).dead <;>
    rcases hv : (run (initialState p0 clips) es).vanishing <;>
    rcases hd2 : (step (run (initialState p0 clips) es) e).dead <;>
    rcases hv2 : (step (run (initialState p0 clips) es) e).vanishing <;>
    simp_all [lifecycleState, lifeOrd]

/-- C4: the removal deadline is scheduled at most once per agent lifetime
(over every event sequence from spawn, the number of `setTimeout` calls is at
most 1), and triggering the Alive→Vanishing transition a second time is a
no-op: `startVanish` applied after any `startVanish` leaves the state
unchanged. -/
theorem C4_single_schedule (p0 : Vec3) (clips : List String)
    (es : List Event) (t1 t2 : ℚ) :
    (run (initialState p0 clips) es).timersScheduled ≤ 1 ∧
    startVanish t2 (startVanish t1 (run (initialState p0 clips) es))
      = startVanish t1 (run (initialState p0 clips) es) := by
  constructor
  · have h := run_timersEq (initialState p0 clips) es (by simp [initialState])
    rw [h]
    split <;> norm_num
  · exact startVanish_idem t1 t2 _

/-- C5: on the first entry into Vanishing (agent not yet vanishing, body
present), `startVanish` in one step captures `vanishOriginPosition` from the
body's current position, disables the body, and schedules the removal
deadline at `now + VANISH_DURATION`; the captured position is never written
again by any subsequent event sequence, and when the scheduled timer fires
the agent becomes dead (Removed) and the external `onDead` notification
fires. -/
theorem C5_vanish_entry (s : AgentState) (b : Body) (now : ℚ) (es : List Event)
    (hv : s.vanishing = false) (hb : s.rigid = some b) :
    (startVanish now s).vanishPos = b.pos ∧
    (startVanish now s).rigid = some { pos := b.pos, enabled := false } ∧
    (startVanish now s).removalDeadline = some (now + VANISH_DURATION) ∧
    (startVanish now s).timerPending = true ∧
    (run (startVanish now s) es).vanishPos = b.pos ∧
    (step (startVanish now s) Event.timer).dead = true ∧
    (step (startVanish now s) Event.timer).onDeadCount = s.onDeadCount + 1 := by
  have hf := startVanish_fields now s b hv hb
  refine ⟨by rw [hf], by rw [hf], by rw [hf], by rw [hf], ?_, ?_, ?_⟩
  · rw [run_vanishPos _ _ (startVanish_vanishing now s), hf]
  · rw [step_timer_eq, hf]
    simp [timerFire]
  · rw [step_timer_eq, hf]
    simp [timerFire]

/-- C5 witness: the entry effects at a concrete freshly spawned agent
(body at the origin, `now = 5`, followed by a damage event and a physics
placement attempt). -/
theorem C5_witness :
    (startVanish 5 ghostInit).vanishPos = (Body.mk ⟨0, 0, 0⟩ true).pos ∧
    (startVanish 5 ghostInit).rigid
      = some { pos := (Body.mk ⟨0, 0, 0⟩ true).pos, enabled := false } ∧
    (startVanish 5 ghostInit).removalDeadline = some (5 + VANISH_DURATION) ∧
    (startVanish 5 ghostInit).timerPending = true ∧
    (run (startVanish 5 ghostInit) [Event.hit 8 10, Event.physSetPos ⟨9, 9, 9⟩]).vanishPos
      = (Body.mk ⟨0, 0, 0⟩ true).pos ∧
    (step (startVanish 5 ghostInit) Event.timer).dead = true ∧
    (step (startVanish 5 ghostInit) Event.timer).onDeadCount = ghostInit.onDeadCount + 1 :=
  C5_vanish_entry ghostInit ⟨⟨0, 0, 0⟩, true⟩ 5
    [Event.hit 8 10, Event.physSetPos ⟨9, 9, 9⟩] rfl rfl

/-- C8: the animation selector is idempotent with respect to the current
clip: requesting a different available clip performs a stop-all followed by
one start with a 0.2 s fade-in and records the clip as current; requesting
the now-current clip again performs no action; so two successive identical
requests produce exactly one start action. -/
theorem C8_play_dedup (s : AgentState) (name : String)
    (hne : s.curr ≠ name) (hav : name ∈ s.actions) :
    play s name
      = ({ s with curr := name },
         [AnimAction.stopAll, AnimAction.start name (2 / 10)]) ∧
    play { s with curr := name } name = ({ s with curr := name }, []) ∧
    startCount (play s name).2
      + startCount (play { s with curr := name } name).2 = 1 := by
  have h1 : play s name
      = ({ s with curr := name },
         [AnimAction.stopAll, AnimAction.start name (2 / 10)]) := by
    unfold play
    simp [hne, hav]
  have h2 : play { s with curr := name } name = ({ s with curr := name }, []) := by
    unfold play
    simp
  exact ⟨h1, h2, by rw [h1, h2]; simp [startCount]⟩

/-- C8 witness: a fresh agent (current clip "Idle") asked twice for the walk
clip. -/
theorem C8_witness :
    play ghostInit "Armature|Action_Walk"
      = ({ ghostInit with curr := "Armature|Action_Walk" },
         [AnimAction.stopAll, AnimAction.start "Armature|Action_Walk" (2 / 10)]) ∧
    play { ghostInit with curr := "Armature|Action_Walk" } "Armature|Action_Walk"
      = ({ ghostInit with curr := "Armature|Action_Walk" }, []) ∧
    startCount (play ghostInit "Armature|Action_Walk").2
      + startCount
          (play { ghostInit with curr := "Armature|Action_Walk" } "Armature|Action_Walk").2
      = 1 :=
  C8_play_dedup ghostInit "Armature|Action_Walk" (by decide) (by decide)

/-- C9, counterexample: a single damage event of 15 drives `hitPoints` to −5,
a reachable value at which the fraction `hp / MAX_HP` is −1/2, outside the
claimed range 0.0–1.0. -/
theorem C9_cex :
    (run ghostInit [Event.hit 0 15]).hp = -5 ∧
    ¬ (0 ≤ healthFraction (run ghostInit [Event.hit 0 15]) ∧
       healthFraction (run ghostInit [Event.hit 0 15]) ≤ 1) := by
  constructor
  · decide
  · have h : healthFraction (run ghostInit [Event.hit 0 15]) = -1 / 2 := by
      norm_num [healthFraction, run, step, handleHit, startVanish, ghostInit,
        initialState, ghostClips, MAX_HP, VANISH_DURATION]
    rw [h]
    norm_num

/-- C9, amended: the health fraction is within 0.0–1.0 whenever the health
bar is actually rendered — that is, in every reachable state in which the
agent is not vanishing (the bar is mounted only under `!vanishing`), given
that damage amounts are positive as the spec requires; after the death
transition `hitPoints` may be negative, but the bar is no longer rendered. -/
theorem C9_health_fraction (p0 : Vec3) (clips : List String) (es : List Event)
    (hok : ∀ e ∈ es, damageOk e = true)
    (hv : (run (initialState p0 clips) es).vanishing = false) :
    0 ≤ healthFraction (run (initialState p0 clips) es) ∧
    healthFraction (run (initialState p0 clips) es) ≤ 1 := by
  have h := run_hpInv (initialState p0 clips) es hok
    (by simp [initialState]) (by intro _; norm_num [initialState, MAX_HP])
  have hpos : 0 < (run (initialState p0 clips) es).hp := h.2 hv
  have hle : (run (initialState p0 clips) es).hp ≤ MAX_HP := h.1
  unfold healthFraction
  constructor
  · apply div_nonneg
    · exact_mod_cast hpos.le
    · norm_num [MAX_HP]
  · rw [div_le_one (by norm_num [MAX_HP] : (0 : ℚ) < ((MAX_HP : ℤ) : ℚ))]
    exact_mod_cast hle

/-- C9 witness: the amended claim after one damage event of 3 (agent alive,
fraction 7/10). -/
theorem C9_witness :
    0 ≤ healthFraction (run (initialState ⟨0, 0, 0⟩ ghostClips) [Event.hit 0 3]) ∧
    healthFraction (run (initialState ⟨0, 0, 0⟩ ghostClips) [Event.hit 0 3]) ≤ 1 :=
  C9_health_fraction ⟨0, 0, 0⟩ ghostClips [Event.hit 0 3] (by decide) (by decide)

/-- C10: every kinematic target proposed by a tick — the pursuit step and the
retreat step alike — keeps the y coordinate of the proposed position exactly
equal to the body's current y coordinate: motion commands never change the
agent's height. -/
theorem C10_motion_keeps_y (s : AgentState) (player : Option Vec3)
    (dt now dist : ℚ) (b : Body) (m : Vec3) (hb : s.rigid = some b)
    (hm : (tick s player dt now dist).2.motion = some m) :
    m.y = b.pos.y := by
  rcases player with _ | p
  · rcases hd : s.dead <;> simp [tick, hd, hb, noTick] at hm
  · rcases tick_motion_y s p b dt now dist hb with h | ⟨mx, mz, h⟩
    · rw [h] at hm
      exact Option.noConfusion hm
    · rw [h, Option.some.injEq] at hm
      rw [← hm]

/-- C10 witness: a concrete pursuit tick (player at (3, 0, 4), ghost at the
origin, distance 5) proposes a target whose y coordinate equals the body's. -/
theorem C10_witness :
    (Vec3.mk (6 / 5) 0 (8 / 5)).y = (Body.mk ⟨0, 0, 0⟩ true).pos.y :=
  C10_motion_keeps_y ghostInit (some ⟨3, 0, 4⟩) (1 / 2) 0 5 ⟨⟨0, 0, 0⟩, true⟩
    ⟨6 / 5, 0, 8 / 5⟩ rfl
    (by norm_num [tick, ghostInit, initialState, ghostClips, play,
      ATTACK_RANGE, WALK_SPEED, MAX_HP])

/-- C3, counterexample: the tick body only early-returns on `dead`, not on
`vanishing`.  After a rain-stop event the agent is Vanishing (not Alive), the
player and body refs are both available, and yet the tick still proposes a
pursuit motion command and still requests the walk animation clip — it is not
a no-op. -/
theorem C3_cex :
    lifecycleState (run ghostInit [Event.rainStop 0]) = Lifecycle.Vanishing ∧
    (tick (run ghostInit [Event.rainStop 0]) (some ⟨5, 0, 0⟩) (1 / 2) 0 5).2.motion
      = some ⟨2, 0, 0⟩ ∧
    (tick (run ghostInit [Event.rainStop 0]) (some ⟨5, 0, 0⟩) (1 / 2) 0 5).2.animReq
      = some "Armature|Action_Walk" := by
  refine ⟨by decide, ?_, by decide⟩
  norm_num [tick, run, step, startVanish, ghostInit, initialState, ghostClips, noTick,
    play, ATTACK_RANGE, WALK_SPEED, ATTACK_COOLDOWN, VANISH_DURATION, MAX_HP]

/-- C3, amended: the tick is a no-op — state unchanged, no motion command, no
animation request, no orientation — whenever the agent is dead (Removed), or
the target position is unavailable, or the physics body is unavailable.
While merely Vanishing the tick still runs: it can propose motion and request
animation (both without visible effect downstream, since the body has been
disabled and the model unmounted), though it no longer orients the model. -/
theorem C3_noop (s : AgentState) (player : Option Vec3) (dt now dist : ℚ)
    (h : s.dead = true ∨ player = none ∨ s.rigid = none) :
    tick s player dt now dist = (s, noTick) := by
  rcases h with h | h | h
  · simp [tick, h]
  · subst h
    rcases hd : s.dead
    · rcases hr : s.rigid with _ | b <;> simp [tick, hd, hr]
    · simp [tick, hd]
  · rcases hd : s.dead
    · rcases hp : player with _ | p <;> simp [tick, hd, h]
    · simp [tick, hd]

/-- C3 witness: the amended no-op claim at a concrete input (fresh agent, no
target available). -/
theorem C3_witness :
    tick ghostInit none 1 0 0 = (ghostInit, noTick) :=
  C3_noop ghostInit none 1 0 0 (Or.inr (Or.inl rfl))

/-- C6: whenever the tick runs (agent not dead, both refs available) and the
planar distance — the non-negative number whose square is the sum of the
squared horizontal offsets, i.e. `Math.hypot` — exceeds ATTACK_RANGE, the
proposed kinematic target is the current position plus the horizontal unit
direction toward the target scaled by `WALK_SPEED * dt` (so the proposed
horizontal displacement has length exactly `WALK_SPEED * dt`), and the
requested animation is the walk clip.  At distance 5 with `dt = 1/2` the
displacement length is 2, as the witness instantiates. -/
theorem C6_pursuit (s : AgentState) (p : Vec3) (b : Body) (dt now dist : ℚ)
    (hd : s.dead = false) (hb : s.rigid = some b)
    (hsq : dist ^ 2 = (p.x - b.pos.x) ^ 2 + (p.z - b.pos.z) ^ 2)
    (hfar : ATTACK_RANGE < dist) :
    (tick s (some p) dt now dist).2.motion
      = some ⟨b.pos.x + (p.x - b.pos.x) / dist * WALK_SPEED * dt, b.pos.y,
              b.pos.z + (p.z - b.pos.z) / dist * WALK_SPEED * dt⟩ ∧
    (tick s (some p) dt now dist).2.animReq = some "Armature|Action_Walk" ∧
    ((p.x - b.pos.x) / dist * WALK_SPEED * dt) ^ 2
      + ((p.z - b.pos.z) / dist * WALK_SPEED * dt) ^ 2
      = (WALK_SPEED * dt) ^ 2 := by
  have hpos : (0 : ℚ) < dist := lt_trans (by norm_num [ATTACK_RANGE]) hfar
  have hne : dist ≠ 0 := ne_of_gt hpos
  have hd2 : dist ^ 2 ≠ 0 := pow_ne_zero 2 hne
  refine ⟨by simp [tick, hd, hb, hfar], by simp [tick, hd, hb, hfar], ?_⟩
  calc ((p.x - b.pos.x) / dist * WALK_SPEED * dt) ^ 2
        + ((p.z - b.pos.z) / dist * WALK_SPEED * dt) ^ 2
      = ((p.x - b.pos.x) ^ 2 + (p.z - b.pos.z) ^ 2) / dist ^ 2
          * (WALK_SPEED * dt) ^ 2 := by
        field_simp
        ring
    _ = dist ^ 2 / dist ^ 2 * (WALK_SPEED * dt) ^ 2 := by rw [← hsq]
    _ = (WALK_SPEED * dt) ^ 2 := by rw [div_self hd2, one_mul]

/-- C6 witness: ghost at the origin, player at (3, 0, 4) — planar distance 5
— with `dt = 1/2`: the proposed step is (6/5, 0, 8/5), of length 2. -/
theorem C6_witness :
    (tick ghostInit (some ⟨3, 0, 4⟩) (1 / 2) 0 5).2.motion
      = some ⟨0 + (3 - 0) / 5 * WALK_SPEED * (1 / 2), 0,
              0 + (4 - 0) / 5 * WALK_SPEED * (1 / 2)⟩ ∧
    (tick ghostInit (some ⟨3, 0, 4⟩) (1 / 2) 0 5).2.animReq
      = some "Armature|Action_Walk" ∧
    ((3 - 0) / 5 * WALK_SPEED * (1 / 2)) ^ 2 + ((4 - 0) / 5 * WALK_SPEED * (1 / 2)) ^ 2
      = (WALK_SPEED * (1 / 2)) ^ 2 :=
  C6_pursuit ghostInit ⟨3, 0, 4⟩ ⟨⟨0, 0, 0⟩, true⟩ (1 / 2) 0 5 rfl rfl
    (by norm_num) (by norm_num [ATTACK_RANGE])

/-- C7, counterexample: ghost at the origin, player directly above it at
(0, 5, 0): the planar distance is 0 (within ATTACK_RANGE) and the cooldown
has elapsed (now = 2000 > 1000), so the claim demands a retreat step of
exactly 0.3 units; but `normalize` maps the zero vector to the zero vector,
so the proposed position equals the current position — a displacement of
length 0, not 0.3. -/
theorem C7_cex :
    (tick ghostInit (some ⟨0, 5, 0⟩) 1 2000 0).2.motion = some ⟨0, 0, 0⟩ ∧
    (tick ghostInit (some ⟨0, 5, 0⟩) 1 2000 0).1.lastAttack = 2000 ∧
    ((0 : ℚ) - 0) ^ 2 + ((0 : ℚ) - 0) ^ 2 ≠ (3 / 10) ^ 2 := by
  refine ⟨?_, ?_, by norm_num⟩ <;>
    norm_num [tick, ghostInit, initialState, ghostClips, noTick, play,
      ATTACK_RANGE, ATTACK_COOLDOWN, MAX_HP]

/-- C7, amended: on a tick within ATTACK_RANGE with strictly positive planar
distance, the attack clip is requested; the cooldown having elapsed
(`now - lastAttack > ATTACK_COOLDOWN`), `lastAttack` is stamped to `now` and
a one-shot retreat step of exactly 0.3 units (not scaled by `dt`) away from
the target is proposed; and a second in-range tick within the cooldown
window proposes no motion, still requests the attack clip, and leaves the
timestamp unchanged.  (At planar distance exactly 0 the normalised away
direction degenerates to the zero vector and the proposed retreat has length
0, which is what the counterexample exhibits.) -/
theorem C7_attack_cooldown (s : AgentState) (p : Vec3) (b : Body)
    (dt now dist now2 dt2 dist2 : ℚ)
    (hd : s.dead = false) (hb : s.rigid = some b)
    (hnear : ¬ ATTACK_RANGE < dist) (hpos : 0 < dist)
    (hsq : dist ^ 2 = (p.x - b.pos.x) ^ 2 + (p.z - b.pos.z) ^ 2)
    (hcool : ATTACK_COOLDOWN < now - s.lastAttack)
    (hle : now2 - now ≤ ATTACK_COOLDOWN) (hn2 : ¬ ATTACK_RANGE < dist2) :
    (tick s (some p) dt now dist).2.animReq = some "Armature|Action_Atack" ∧
    (tick s (some p) dt now dist).1.lastAttack = now ∧
    (tick s (some p) dt now dist).2.motion
      = some ⟨b.pos.x + (b.pos.x - p.x) / dist * (3 / 10), b.pos.y,
              b.pos.z + (b.pos.z - p.z) / dist * (3 / 10)⟩ ∧
    ((b.pos.x - p.x) / dist * (3 / 10)) ^ 2 + ((b.pos.z - p.z) / dist * (3 / 10)) ^ 2
      = (3 / 10) ^ 2 ∧
    (tick (tick s (some p) dt now dist).1 (some p) dt2 now2 dist2).2.motion = none ∧
    (tick (tick s (some p) dt now dist).1 (some p) dt2 now2 dist2).2.animReq
      = some "Armature|Action_Atack" ∧
    (tick (tick s (some p) dt now dist).1 (some p) dt2 now2 dist2).1.lastAttack
      = now := by
  have hne : dist ≠ 0 := ne_of_gt hpos
  have hA : (tick s (some p) dt now dist).1.lastAttack = now := by
    simp [tick, hd, hb, hnear, hcool]
  have hd1 : (tick s (some p) dt now dist).1.dead = false := by
    rw [(tick_preserves s (some p) dt now dist).2.1]
    exact hd
  have hb1 : (tick s (some p) dt now dist).1.rigid = some b := by
    rw [(tick_preserves s (some p) dt now dist).2.2.2.2.1]
    exact hb
  have hnc : ¬ ATTACK_COOLDOWN < now2 - (tick s (some p) dt now dist).1.lastAttack := by
    rw [hA]
    exact not_lt.mpr hle
  have hd2 : dist ^ 2 ≠ 0 := pow_ne_zero 2 hne
  refine ⟨by simp [tick, hd, hb, hnear, hcool], hA,
    by simp [tick, hd, hb, hnear, hcool], ?_, ?_, ?_, ?_⟩
  · calc ((b.pos.x - p.x) / dist * (3 / 10)) ^ 2
          + ((b.pos.z - p.z) / dist * (3 / 10)) ^ 2
        = ((p.x - b.pos.x) ^ 2 + (p.z - b.pos.z) ^ 2) / dist ^ 2
            * ((3 : ℚ) / 10) ^ 2 := by
          field_simp
          ring
      _ = dist ^ 2 / dist ^ 2 * ((3 : ℚ) / 10) ^ 2 := by rw [← hsq]
      _ = ((3 : ℚ) / 10) ^ 2 := by rw [div_self hd2, one_mul]
  · generalize hg : (tick s (some p) dt now dist).1 = s1 at hd1 hb1 hnc
    simp [tick, hd1, hb1, hn2, hnc]
  · generalize hg : (tick s (some p) dt now dist).1 = s1 at hd1 hb1 hnc
    simp [tick, hd1, hb1, hn2, hnc]
  · generalize hg : (tick s (some p) dt now dist).1 = s1 at hd1 hb1 hnc hA
    rw [hA] at hnc
    simp [tick, hd1, hb1, hn2, hnc, play_lastAttack, hA]

/-- C7 witness: ghost at the origin, player at (1/2, 0, 0) — planar distance
1/2, within range — first in-range tick at `now = 1500` (cooldown elapsed
since `lastAttack = 0`), second in-range tick at `now2 = 2000`
(2000 − 1500 = 500 ms < 1000 ms cooldown). -/
theorem C7_witness :
    (tick ghostInit (some ⟨1 / 2, 0, 0⟩) 1 1500 (1 / 2)).2.animReq
      = some "Armature|Action_Atack" ∧
    (tick ghostInit (some ⟨1 / 2, 0, 0⟩) 1 1500 (1 / 2)).1.lastAttack = 1500 ∧
    (tick ghostInit (some ⟨1 / 2, 0, 0⟩) 1 1500 (1 / 2)).2.motion
      = some ⟨0 + (0 - 1 / 2) / (1 / 2) * (3 / 10), 0,
              0 + (0 - 0) / (1 / 2) * (3 / 10)⟩ ∧
    ((0 - 1 / 2 : ℚ) / (1 / 2) * (3 / 10)) ^ 2 + ((0 - 0 : ℚ) / (1 / 2) * (3 / 10)) ^ 2
      = (3 / 10) ^ 2 ∧
    (tick (tick ghostInit (some ⟨1 / 2, 0, 0⟩) 1 1500 (1 / 2)).1
      (some ⟨1 / 2, 0, 0⟩) 1 2000 (1 / 2)).2.motion = none ∧
    (tick (tick ghostInit (some ⟨1 / 2, 0, 0⟩) 1 1500 (1 / 2)).1
      (some ⟨1 / 2, 0, 0⟩) 1 2000 (1 / 2)).2.animReq = some "Armature|Action_Atack" ∧
    (tick (tick ghostInit (some ⟨1 / 2, 0, 0⟩) 1 1500 (1 / 2)).1
      (some ⟨1 / 2, 0, 0⟩) 1 2000 (1 / 2)).1.lastAttack = 1500 :=
  C7_attack_cooldown ghostInit ⟨1 / 2, 0, 0⟩ ⟨⟨0, 0, 0⟩, true⟩ 1 1500 (1 / 2) 2000 1 (1 / 2)
    rfl rfl (by norm_num [ATTACK_RANGE]) (by norm_num) (by norm_num)
    (by norm_num [ATTACK_COOLDOWN, ghostInit, initialState])
    (by norm_num [ATTACK_COOLDOWN]) (by norm_num [ATTACK_RANGE])

end EnemyGhost
